import Mathlib

/-!
Verification of the mojo-marimo executor pipeline.

This file gives a shallow embedding of the repository's core components:

* `validate_mojo_code` / `get_validation_hint` (src/mojo_marimo/validator.py),
* the cache-key computation `mojoCacheKey` (SHA-256 of the UTF-8 bytes of the
  source, hex, truncated to 16 characters, prefixed with "mojo_"),
* the orchestration `run_mojo` (src/py_run_mojo/executor.py), modelled as a
  pure function over an explicit environment (filesystem, compiler and process
  behaviour) together with an explicit cache state and an event trace,
* the `@mojo` decorator wrapper (src/py_run_mojo/decorator.py).

Python string primitives (strip, lstrip, split, dedent, replace) are embedded
over `List Char` so that everything evaluates by kernel reduction.
-/

set_option maxRecDepth 10000

namespace MojoMarimo

/-- Whitespace characters stripped by Python's default str.strip and matched
by the regex class backslash-s (ASCII fragment, which is all the repository
ever feeds in). -/
def pyIsSpaceChar (c : Char) : Bool :=
  c = ' ' || c = '\t' || c = '\n' || c = '\r' || c = '\x0b' || c = '\x0c'

/-- Python str.lstrip() on a character list. -/
def lstripChars (cs : List Char) : List Char := cs.dropWhile pyIsSpaceChar

/-- Python str.strip() on a character list. -/
def stripChars (cs : List Char) : List Char :=
  ((cs.dropWhile pyIsSpaceChar).reverse.dropWhile pyIsSpaceChar).reverse

/-- Python str.strip(). -/
def pyStrip (s : String) : String := String.mk (stripChars s.data)

/-- Python str.lstrip(). -/
def pyLStrip (s : String) : String := String.mk (lstripChars s.data)

/-- Python text.split(backslash-n): split a character list at newline
characters; the result always has one more part than there are newlines. -/
def splitNl : List Char → List (List Char)
  | [] => [[]]
  | '\n' :: rest => [] :: splitNl rest
  | c :: rest =>
    match splitNl rest with
    | l :: ls => (c :: l) :: ls
    | [] => [[c]]

/-- Inverse of `splitNl`: join line fragments with newline characters. -/
def joinNl : List (List Char) → List Char
  | [] => []
  | [l] => l
  | l :: ls => l ++ '\n' :: joinNl ls

/-- The lines of a string, Python s.split(backslash-n). -/
def pyLines (s : String) : List (List Char) := splitNl s.data

/-- A line consisting solely of at least one space or tab (the lines that
textwrap.dedent's whitespace-only regex blanks out). -/
def wsOnlyLine (l : List Char) : Bool :=
  !l.isEmpty && l.all (fun c => c = ' ' || c = '\t')

/-- A line containing at least one character that is not a space or tab (the
lines whose leading whitespace participates in dedent's margin). -/
def hasContent (l : List Char) : Bool :=
  l.any (fun c => !(c = ' ' || c = '\t'))

/-- Leading run of spaces and tabs of a line. -/
def leadingWs (l : List Char) : List Char :=
  l.takeWhile (fun c => c = ' ' || c = '\t')

/-- Character-wise longest common prefix, the fixpoint of textwrap.dedent's
margin-update loop. -/
def lcpChars : List Char → List Char → List Char
  | a :: as, b :: bs => if a = b then a :: lcpChars as bs else []
  | _, _ => []

/-- textwrap.dedent: blank out whitespace-only lines, compute the common
leading space/tab margin of the remaining lines, and remove that margin from
every line that starts with it. -/
def pyDedent (text : String) : String :=
  let lines := (splitNl text.data).map (fun l => if wsOnlyLine l then [] else l)
  let indents := (lines.filter hasContent).map leadingWs
  let margin := match indents with
    | [] => []
    | i :: rest => rest.foldl lcpChars i
  let lines2 := if margin.isEmpty then lines
    else lines.map (fun l => if margin.isPrefixOf l then l.drop margin.length else l)
  String.mk (joinNl lines2)

/-- Python regex word characters (ASCII fragment of backslash-w). -/
def isWordChar (c : Char) : Bool := c.isAlphanum || c = '_'

/-- A word boundary holds before a word character when the previous character
is absent or not a word character. -/
def atBoundary : Option Char → Bool
  | none => true
  | some c => !isWordChar c

/-- Run a position matcher over every suffix of the text, tracking the
previous character; this is re.search for the fixed patterns below. -/
def scanPositions (p : Option Char → List Char → Bool) : Option Char → List Char → Bool
  | _, [] => false
  | prev, c :: rest => p prev (c :: rest) || scanPositions p (some c) rest

/-- Does any of the given prefixes begin the line (Python startswith with a
tuple argument). -/
def startsWithAnyOf (l : List Char) (ps : List (List Char)) : Bool :=
  ps.any (fun p => p.isPrefixOf l)

/-- Match of the pattern backslash-b let backslash-s+ backslash-w at one
position: word boundary, literal let, at least one whitespace character, then
a word character. -/
def matchLetAt (prev : Option Char) (suf : List Char) : Bool :=
  atBoundary prev &&
    "let".data.isPrefixOf suf &&
    (let rest := suf.drop 3
     let ws := rest.takeWhile pyIsSpaceChar
     decide (1 ≤ ws.length) &&
       (match rest.drop ws.length with
        | c :: _ => isWordChar c
        | [] => false))

/-- Match of the multiline pattern caret backslash-s+ print backslash-s+
negative-lookahead-open-paren at one position: start of line, whitespace run,
literal print, then at least one whitespace character whose successor is not
an opening parenthesis. -/
def matchPrintAt (prev : Option Char) (suf : List Char) : Bool :=
  (prev = none || prev = some '\n') &&
    (let ws := suf.takeWhile pyIsSpaceChar
     decide (1 ≤ ws.length) &&
       (let rest := suf.drop ws.length
        "print".data.isPrefixOf rest &&
          (match rest.drop 5 with
           | c :: rest3 =>
             pyIsSpaceChar c &&
               (match rest3 with
                | '(' :: _ => false
                | _ => true)
           | [] => false)))

/-- Match of the pattern colon backslash-s* word backslash-b at one position,
for the lowercase primitive-type checks. -/
def matchColonWordAt (word : List Char) (_prev : Option Char) (suf : List Char) : Bool :=
  match suf with
  | ':' :: rest =>
    let ws := rest.takeWhile pyIsSpaceChar
    let r2 := rest.drop ws.length
    word.isPrefixOf r2 &&
      (match r2.drop word.length with
       | c :: _ => !isWordChar c
       | [] => true)
  | _ => false

/-- Match of the pattern backslash-b range backslash-s+ backslash-d at one
position. -/
def matchRangeAt (prev : Option Char) (suf : List Char) : Bool :=
  atBoundary prev &&
    "range".data.isPrefixOf suf &&
    (let rest := suf.drop 5
     let ws := rest.takeWhile pyIsSpaceChar
     decide (1 ≤ ws.length) &&
       (match rest.drop ws.length with
        | c :: _ => c.isDigit
        | [] => false))

/-- Check 4 of the validator: the per-line loop rejecting statement keywords
at zero indentation outside import/declaration/comment lines. -/
def fileScopeScan : List (List Char) → Nat → Option String
  | [], _ => none
  | line :: rest, i =>
    if (stripChars line).isEmpty then fileScopeScan rest (i + 1)
    else
      let stripped := lstripChars line
      if startsWithAnyOf stripped
          ["from ".data, "import ".data, "fn ".data, "def ".data, "struct ".data, "#".data] then
        fileScopeScan rest (i + 1)
      else if startsWithAnyOf stripped
          ["return ".data, "var ".data, "if ".data, "for ".data, "while ".data, "print(".data] then
        if line.length - stripped.length = 0 then
          let keyword := if stripped.contains '(' then stripped.takeWhile (fun c => c ≠ '(')
            else stripped.takeWhile (fun c => !pyIsSpaceChar c)
          some ("Line " ++ toString i ++ ": '" ++ String.mk keyword ++
            "' at file scope (must be inside a function)")
        else fileScopeScan rest (i + 1)
      else fileScopeScan rest (i + 1)

/-- Check 5 of the validator: every function declaration line must end with a
colon. -/
def colonScan : List (List Char) → Nat → Option String
  | [], _ => none
  | line :: rest, i =>
    let stripped := stripChars line
    if startsWithAnyOf stripped ["fn ".data, "def ".data] then
      if stripped.getLast? = some ':' then colonScan rest (i + 1)
      else some ("Line " ++ toString i ++ ": Function declaration missing colon (':') at end")
    else colonScan rest (i + 1)

/-- The validator's fixed error messages, named for reuse in theorems. -/
def msgEmpty : String := "Empty code provided"

/-- Message of the missing-main check. -/
def msgMissingMain : String :=
  "Missing 'fn main()' or 'def main()' - Mojo executables require a main function"

/-- Message of the mixed-indentation check. -/
def msgMixed : String := "Mixed tabs and spaces in indentation"

/-- validate_mojo_code from src/mojo_marimo/validator.py: a fixed ordered
sequence of checks returning on the first failure. -/
def validate_mojo_code (code : String) : Bool × Option String :=
  let lines := splitNl (stripChars code.data)
  if (stripChars code.data).isEmpty then (false, some msgEmpty)
  else
    let has_main := (splitNl code.data).any (fun l => "fn main()".data.isPrefixOf l)
    let has_def_main := (splitNl code.data).any (fun l => "def main()".data.isPrefixOf l)
    if !(has_main || has_def_main) then (false, some msgMissingMain)
    else
      let has_tabs := lines.any (fun l => !(stripChars l).isEmpty && l.contains '\t')
      let has_spaces := lines.any (fun l =>
        " ".data.isPrefixOf l && !("\t".data.isPrefixOf l))
      if has_tabs && has_spaces then (false, some msgMixed)
      else
        match fileScopeScan lines 1 with
        | some err => (false, some err)
        | none =>
          match colonScan lines 1 with
          | some err => (false, some err)
          | none =>
            if scanPositions matchLetAt none code.data then
              (false, some "'let' keyword is deprecated in Mojo - use 'var' instead")
            else if scanPositions matchPrintAt none code.data then
              (false, some "print requires parentheses: print(...) not print ...")
            else if scanPositions (matchColonWordAt "int".data) none code.data then
              (false, some "Use 'Int' (capitalized) for integer types in Mojo, not 'int'")
            else if scanPositions (matchColonWordAt "str".data) none code.data then
              (false, some "Use 'String' for string types in Mojo, not 'str'")
            else if scanPositions (matchColonWordAt "bool".data) none code.data then
              (false, some "Use 'Bool' (capitalized) for boolean types in Mojo, not 'bool'")
            else if scanPositions matchRangeAt none code.data then
              (false, some "'range' requires parentheses: range(n) not range n")
            else (true, none)

/-- Substring test on character lists (needle occurs contiguously in hay). -/
def containsSub (needle : List Char) : List Char → Bool
  | [] => needle.isPrefixOf ([] : List Char)
  | c :: rest => needle.isPrefixOf (c :: rest) || containsSub needle rest

/-- ASCII lowercasing, Python str.lower on the validator's messages. -/
def lowerChars (cs : List Char) : List Char := cs.map Char.toLower

/-- The ordered hint table of get_validation_hint. -/
def hintPairs : List (String × String) :=
  [("missing 'fn main()'",
    "\n💡 Mojo executables require a main function:\n\nfn main():\n    # Your code here\n    print(\"Hello\")\n"),
   ("at file scope",
    "\n💡 Statements like 'var', 'return', 'if', etc. must be inside a function:\n\nfn main():\n    var x = 42  # ✓ Correct\n    print(x)\n\n# var x = 42  # ✗ Wrong - can't be at file scope\n"),
   ("Mixed tabs and spaces",
    "\n💡 Use consistent indentation (spaces recommended):\n\nfn main():\n    var x = 1    # ✓ All spaces\n    print(x)     # ✓ All spaces\n"),
   ("missing colon",
    "\n💡 Mojo function declarations need a colon:\n\nfn compute(n: Int) -> Int:  # ✓ Colon at end\n    return n * 2\n\nfn compute(n: Int) -> Int   # ✗ Missing colon\n"),
   ("'let' keyword is deprecated",
    "\n💡 Mojo deprecated 'let' in favor of 'var':\n\nfn main():\n    var x = 42   # ✓ Use 'var'\n    var y = 10   # ✓ Use 'var'\n    # let z = 5  # ✗ 'let' is deprecated\n"),
   ("print requires parentheses",
    "\n💡 Mojo requires parentheses for print (like Python 3):\n\nfn main():\n    print(\"Hello\")      # ✓ Correct\n    # print \"Hello\"    # ✗ Python 2 style doesn't work\n"),
   ("Use 'Int'",
    "\n💡 Mojo type names are capitalized:\n\nfn compute(n: Int) -> Int:   # ✓ Capitalized 'Int'\n    return n * 2\n    \n# fn compute(n: int) -> int  # ✗ Python's 'int' doesn't work\n"),
   ("Use 'String'",
    "\n💡 Mojo uses 'String' not 'str':\n\nfn greet(name: String):      # ✓ Use 'String'\n    print(name)\n    \n# fn greet(name: str)        # ✗ Python's 'str' doesn't work\n"),
   ("Use 'Bool'",
    "\n💡 Mojo uses 'Bool' not 'bool':\n\nfn is_valid(flag: Bool) -> Bool:  # ✓ Capitalized 'Bool'\n    return flag\n    \n# fn is_valid(flag: bool)          # ✗ Python's 'bool' doesn't work\n"),
   ("'range' requires parentheses",
    "\n💡 Function calls need parentheses:\n\nfn main():\n    for i in range(10):   # ✓ Correct\n        print(i)\n    # for i in range 10   # ✗ Missing parentheses\n")]

/-- get_validation_hint: first hint whose lowercased key occurs in the
lowercased message, else the empty string. -/
def get_validation_hint (error_msg : String) : String :=
  match hintPairs.find? (fun kv => containsSub (lowerChars kv.1.data) (lowerChars error_msg.data)) with
  | some kv => kv.2
  | none => ""

/-- Truncate to a 32-bit word. -/
def w32 (n : Nat) : Nat := n % 4294967296

/-- 32-bit rotate right. -/
def rotr (n x : Nat) : Nat := w32 ((x >>> n) ||| (x <<< (32 - n)))

/-- SHA-256 big sigma 0. -/
def bsig0 (x : Nat) : Nat := (rotr 2 x) ^^^ (rotr 13 x) ^^^ (rotr 22 x)

/-- SHA-256 big sigma 1. -/
def bsig1 (x : Nat) : Nat := (rotr 6 x) ^^^ (rotr 11 x) ^^^ (rotr 25 x)

/-- SHA-256 small sigma 0. -/
def ssig0 (x : Nat) : Nat := (rotr 7 x) ^^^ (rotr 18 x) ^^^ (x >>> 3)

/-- SHA-256 small sigma 1. -/
def ssig1 (x : Nat) : Nat := (rotr 17 x) ^^^ (rotr 19 x) ^^^ (x >>> 10)

/-- SHA-256 choice function (the complement is taken within 32 bits). -/
def chf (x y z : Nat) : Nat := (x &&& y) ^^^ ((x ^^^ 4294967295) &&& z)

/-- SHA-256 majority function. -/
def majf (x y z : Nat) : Nat := (x &&& y) ^^^ (x &&& z) ^^^ (y &&& z)

/-- The 64 SHA-256 round constants of FIPS 180-4, written in decimal. -/
def K256 : List Nat :=
  [1116352408, 1899447441, 3049323471, 3921009573, 961987163,
   1508970993, 2453635748, 2870763221, 3624381080, 310598401,
   607225278, 1426881987, 1925078388, 2162078206, 2614888103,
   3248222580, 3835390401, 4022224774, 264347078, 604807628,
   770255983, 1249150122, 1555081692, 1996064986, 2554220882,
   2821834349, 2952996808, 3210313671, 3336571891, 3584528711,
   113926993, 338241895, 666307205, 773529912, 1294757372,
   1396182291, 1695183700, 1986661051, 2177026350, 2456956037,
   2730485921, 2820302411, 3259730800, 3345764771, 3516065817,
   3600352804, 4094571909, 275423344, 430227734, 506948616,
   659060556, 883997877, 958139571, 1322822218, 1537002063,
   1747873779, 1955562222, 2024104815, 2227730452, 2361852424,
   2428436474, 2756734187, 3204031479, 3329325298]

/-- The eight initial SHA-256 hash words, written in decimal. -/
def H256 : List Nat :=
  [1779033703, 3144134277, 1013904242, 2773480762, 1359893119,
   2600822924, 528734635, 1541459225]

/-- Big-endian byte rendering of a number into the given number of bytes. -/
def toBytesBE : Nat → Nat → List Nat
  | 0, _ => []
  | k + 1, n => toBytesBE k (n / 256) ++ [n % 256]

/-- Group a byte list into 32-bit big-endian words. -/
def bytesToWords : List Nat → List Nat
  | a :: b :: c :: d :: rest => (a * 16777216 + b * 65536 + c * 256 + d) :: bytesToWords rest
  | _ => []

/-- Extend the 16-word message schedule by the given number of extra words. -/
def extendWAux : Nat → List Nat → List Nat
  | 0, ws => ws
  | k + 1, ws =>
    let t := ws.length
    let wt := w32 (ssig1 (ws.getD (t - 2) 0) + ws.getD (t - 7) 0 +
      ssig0 (ws.getD (t - 15) 0) + ws.getD (t - 16) 0)
    extendWAux k (ws ++ [wt])

/-- One SHA-256 compression round on the eight-word working state. -/
def compressRound (state : List Nat) (kt wt : Nat) : List Nat :=
  match state with
  | [a, b, c, d, e, f, g, h] =>
    let t1 := w32 (h + bsig1 e + chf e f g + kt + wt)
    let t2 := w32 (bsig0 a + majf a b c)
    [w32 (t1 + t2), a, b, c, w32 (d + t1), e, f, g]
  | s => s

/-- Compress one 64-byte block into the running hash state. -/
def compressBlock (H : List Nat) (block : List Nat) : List Nat :=
  let ws := extendWAux 48 (bytesToWords block)
  let final := (K256.zip ws).foldl (fun st kw => compressRound st kw.1 kw.2) H
  (H.zip final).map (fun p => w32 (p.1 + p.2))

/-- Split a byte list into 64-byte chunks (fuel-driven; the fuel is the list
length, which bounds the number of chunks). -/
def chunksAux : Nat → List Nat → List (List Nat)
  | 0, _ => []
  | _, [] => []
  | fuel + 1, l => l.take 64 :: chunksAux fuel (l.drop 64)

/-- SHA-256 of a byte list (FIPS 180-4 padding then block compression),
returned as the 32-byte digest. -/
def sha256Bytes (msg : List Nat) : List Nat :=
  let padded := msg ++ [128] ++ List.replicate ((119 - msg.length % 64) % 64) 0 ++
    toBytesBE 8 ((8 * msg.length) % 18446744073709551616)
  let Hf := (chunksAux padded.length padded).foldl compressBlock H256
  (Hf.map (toBytesBE 4)).flatten

/-- Lowercase hexadecimal digit for a value below 16. -/
def hexDigit (n : Nat) : Char := if n < 10 then Char.ofNat (48 + n) else Char.ofNat (87 + n)

/-- Two-character lowercase hexadecimal rendering of a byte. -/
def byteToHex (b : Nat) : List Char := [hexDigit (b / 16), hexDigit (b % 16)]

/-- hashlib hexdigest of SHA-256 over a byte list, as characters. -/
def sha256HexChars (msg : List Nat) : List Char := ((sha256Bytes msg).map byteToHex).flatten

/-- UTF-8 encoding of a single character, as byte values. -/
def utf8EncodeChar (c : Char) : List Nat :=
  let n := c.toNat
  if n < 128 then [n]
  else if n < 2048 then [192 + n / 64, 128 + n % 64]
  else if n < 65536 then [224 + n / 4096, 128 + (n / 64) % 64, 128 + n % 64]
  else [240 + n / 262144, 128 + (n / 4096) % 64, 128 + (n / 64) % 64, 128 + n % 64]

/-- UTF-8 encoding of a string, as byte values. -/
def utf8Encode (s : String) : List Nat := (s.data.map utf8EncodeChar).flatten

/-- The executor's code_hash: first 16 hex characters of the SHA-256 of the
UTF-8 bytes of the (already resolved and dedented) source. -/
def code_hash (code : String) : String :=
  String.mk ((sha256HexChars (utf8Encode code)).take 16)

/-- The executor's cache key: the namespace tag mojo_ followed by the
truncated hash. -/
def mojoCacheKey (code : String) : String := "mojo_" ++ code_hash code

/-- Outcome of one compiler invocation: a completed process with exit code
and captured stderr, or an exception escaping subprocess.run. -/
inductive CompileOutcome where
  | done (returncode : Int) (stderr : String)
  | raised (msg : String)
deriving DecidableEq

/-- Outcome of running a compiled binary: a completed process with captured
stdout, stderr and exit code, a subprocess.SubprocessError, or any other
exception (both caught by the executor). -/
inductive ExecOutcome where
  | done (stdout stderr : String) (returncode : Int)
  | subprocErr (msg : String)
  | unexpectedErr (msg : String)
deriving DecidableEq

/-- The executor's fixed external environment: the filesystem view used to
resolve the source argument, the compiler's behaviour on a given source text,
the behaviour of the binary stored under a given cache key, and the reported
Mojo version. Binary behaviour is keyed by the cache key because entries are
content-addressed. -/
structure Env where
  isFile : String → Bool
  readFile : String → Except String String
  compileRes : String → CompileOutcome
  execRes : String → List String → ExecOutcome
  mojoVersion : String

/-- Observable effects of one run_mojo call, in order: console prints, the
existence probe of the cached binary, scratch-file creation and deletion,
compiler invocation, cache write, and binary execution. -/
inductive Event where
  | printed (s : String)
  | cacheProbe (key : String)
  | scratchWrite (content : String)
  | scratchDelete
  | compileInvoked (src : String) (outKey : String)
  | cacheWrite (key : String)
  | execInvoked (key : String) (args : List String)
deriving DecidableEq

/-- Decidable equality for Except values, used to evaluate concrete runs. -/
instance {ε α : Type} [DecidableEq ε] [DecidableEq α] : DecidableEq (Except ε α) := fun x y =>
  match x, y with
  | .ok a, .ok b => if h : a = b then .isTrue (by simp [h]) else .isFalse (by simp [h])
  | .error a, .error b => if h : a = b then .isTrue (by simp [h]) else .isFalse (by simp [h])
  | .ok _, .error _ => .isFalse (by simp)
  | .error _, .ok _ => .isFalse (by simp)

/-- Result of one run_mojo call: the Python return value (or an uncaught
exception), the cache contents afterwards, and the event trace. -/
structure RunOutput where
  ret : Except String (Option String)
  cache : List String
  trace : List Event
deriving DecidableEq

/-- Add a key to the cache directory listing (writing the compiled binary to
the path named by the key). -/
def insertKey (k : String) (c : List String) : List String :=
  if k ∈ c then c else c ++ [k]

/-- Intermediate verdict of the compile-or-reuse step. -/
inductive CompileStep where
  | proceed
  | failedStep (stderr : String)
  | raisedStep (msg : String)
deriving DecidableEq

/-- Lines 138-161 of executor.py when compilation is required: optionally
announce caching, write the scratch file, invoke mojo build with the cache
path as output, and delete the scratch file on success, compile failure and
exception alike. A cache entry appears exactly when the compiler exits
zero. -/
def compileNow (env : Env) (code key : String) (cache : List String) (useCache echoOutput : Bool) :
    CompileStep × List String × List Event :=
  let pre : List Event :=
    (if useCache && echoOutput then [.printed ("[Compiling and caching as " ++ key ++ "...]")] else [])
      ++ [.scratchWrite code, .compileInvoked code key]
  match env.compileRes code with
  | .done rc stderr =>
    if rc = 0 then
      (.proceed, insertKey key cache, pre ++ [.cacheWrite key, .scratchDelete])
    else
      (.failedStep stderr, cache,
        pre ++ [.printed ("### Compilation failed:\n" ++ stderr), .scratchDelete])
  | .raised m => (.raisedStep m, cache, pre ++ [.scratchDelete])

/-- Lines 136-164 of executor.py: when use_cache is false the existence probe
is short-circuited away and compilation always happens; when use_cache is
true the cached binary is probed and reused if present. -/
def compilePhase (env : Env) (code key : String) (cache : List String) (useCache echoOutput : Bool) :
    CompileStep × List String × List Event :=
  if useCache then
    if key ∈ cache then
      (.proceed, cache,
        [.cacheProbe key] ++
          (if echoOutput then [.printed ("[Using cached binary " ++ key ++ "]")] else []))
    else
      match compileNow env code key cache useCache echoOutput with
      | (st, c, ev) => (st, c, [.cacheProbe key] ++ ev)
  else compileNow env code key cache useCache echoOutput

/-- Lines 166-198 of executor.py: run the binary at the cache path, trim its
stdout, surface stderr, and let a nonzero exit code override any output;
subprocess errors and unexpected exceptions are caught and yield None. -/
def execPhase (env : Env) (key : String) (extraArgs : List String) (echoOutput : Bool) :
    Except String (Option String) × List Event :=
  match env.execRes key extraArgs with
  | .done out err rc =>
    let output : Option String := if out ≠ "" then some (pyStrip out) else none
    let ev1 : List Event :=
      match output with
      | some o =>
        if echoOutput then [.printed ("\n### Output - " ++ env.mojoVersion ++ ":\n" ++ o)] else []
      | none => []
    let ev2 : List Event := if err ≠ "" then [.printed ("\n### Runtime errors:\n" ++ err)] else []
    (.ok (if rc ≠ 0 then none else output), [.execInvoked key extraArgs] ++ ev1 ++ ev2)
  | .subprocErr m => (.ok none, [.execInvoked key extraArgs, .printed ("Subprocess error: " ++ m)])
  | .unexpectedErr m => (.ok none, [.execInvoked key extraArgs, .printed ("Unexpected error: " ++ m)])

/-- Python rendering of an optional string, for the validation-error print. -/
def optMsgStr : Option String → String
  | some s => s
  | none => "None"

/-- Lines 122-198 of executor.py, from validation onwards, on the resolved
program text. -/
def runMojoCore (env : Env) (cache : List String) (code : String)
    (echoOutput useCache : Bool) (extraArgs : List String) : RunOutput :=
  match validate_mojo_code code with
  | (false, msg) =>
    let m := optMsgStr msg
    let hint := get_validation_hint m
    { ret := .ok none, cache := cache,
      trace := [.printed ("### Validation Error: " ++ m)] ++
        (if hint ≠ "" then [.printed hint] else []) }
  | (true, _) =>
    let key := mojoCacheKey code
    match compilePhase env code key cache useCache echoOutput with
    | (.proceed, c1, ev) =>
      match execPhase env key extraArgs echoOutput with
      | (r, ev2) => { ret := r, cache := c1, trace := ev ++ ev2 }
    | (.failedStep _, c1, ev) => { ret := .ok none, cache := c1, trace := ev }
    | (.raisedStep m, c1, ev) => { ret := .error m, cache := c1, trace := ev }

/-- The 80-dash separator printed after echoed code. -/
def dashes80 : String := String.mk (List.replicate 80 '-')

/-- run_mojo from executor.py: reject empty input, resolve the source
argument (file contents verbatim, or the inline text dedented), then
validate, compile-or-reuse, and execute. -/
def run_mojo (env : Env) (cache : List String) (source : String)
    (echo_code echo_output use_cache : Bool) (extra_args : List String) : RunOutput :=
  if pyStrip source = "" then
    { ret := .ok none, cache := cache, trace := [.printed "Error: Empty source provided."] }
  else if env.isFile source then
    match env.readFile source with
    | .error e =>
      { ret := .ok none, cache := cache,
        trace := [.printed ("Error reading file " ++ source ++ ": " ++ e)] }
    | .ok content =>
      let ev : List Event :=
        if echo_code then
          [.printed ("### Mojo code from file: " ++ source ++ "\n"),
           .printed content, .printed dashes80]
        else []
      let r := runMojoCore env cache content echo_output use_cache extra_args
      { r with trace := ev ++ r.trace }
  else
    let code := pyDedent source
    let ev : List Event :=
      if echo_code then
        [.printed "### Mojo code from string\n", .printed code, .printed dashes80]
      else []
    let r := runMojoCore env cache code echo_output use_cache extra_args
    { r with trace := ev ++ r.trace }

/-- The program text that a run_mojo call validates and hashes, if it gets
that far: file contents for an existing readable file, the dedented argument
otherwise, and nothing when the argument strips to empty or the read fails. -/
def resolvedCode (env : Env) (source : String) : Option String :=
  if pyStrip source = "" then none
  else if env.isFile source then
    match env.readFile source with
    | .ok content => some content
    | .error _ => none
  else some (pyDedent source)

/-- A source is rejected by validation when the text it resolves to fails
validate_mojo_code (sources that never reach validation count trivially). -/
def rejectedByValidation (env : Env) (source : String) : Bool :=
  match resolvedCode env source with
  | some c => !(validate_mojo_code c).fst
  | none => true

/-- Recognizer for print events. -/
def isPrinted : Event → Bool
  | .printed _ => true
  | _ => false

/-- A trace whose every event is a console print. -/
def onlyPrints (tr : List Event) : Bool := tr.all isPrinted

/-- Recognizer for compiler invocations. -/
def isCompileEvent : Event → Bool
  | .compileInvoked _ _ => true
  | _ => false

/-- Recognizer for cache existence probes. -/
def isProbeEvent : Event → Bool
  | .cacheProbe _ => true
  | _ => false

/-- Recognizer for scratch-file creations. -/
def isScratchWrite : Event → Bool
  | .scratchWrite _ => true
  | _ => false

/-- Recognizer for scratch-file deletions. -/
def isScratchDelete : Event → Bool
  | .scratchDelete => true
  | _ => false

/-- Replace every occurrence of a nonempty pattern, scanning left to right
(Python str.replace); the fuel is the text length, which bounds the number of
scanning steps. -/
def replaceAllAux (pat repl : List Char) : Nat → List Char → List Char
  | 0, cs => cs
  | fuel + 1, cs =>
    if pat.isPrefixOf cs then repl ++ replaceAllAux pat repl fuel (cs.drop pat.length)
    else
      match cs with
      | [] => []
      | c :: rest => c :: replaceAllAux pat repl fuel rest

/-- Python str.replace for a nonempty pattern (the decorator's placeholder
patterns always contain their brace delimiters, so the empty-pattern case of
str.replace never arises). -/
def pyReplace (s pat repl : String) : String :=
  if pat.data.isEmpty then s
  else String.mk (replaceAllAux pat.data repl.data s.data.length s.data)

/-- Placeholder substitution of the decorator wrapper: for each bound
argument, replace the doubled-brace placeholder built from the parameter name
with the str() rendering of the value, in binding order. -/
def renderTemplate (template : String) (args : List (String × String)) : String :=
  args.foldl (fun acc nv => pyReplace acc ("\x7b\x7b" ++ nv.1 ++ "\x7d\x7d") nv.2) template

/-- The return-type annotations the wrapper special-cases. -/
inductive RetAnn where
  | annInt
  | annBool
  | annFloat
  | annOther
deriving DecidableEq

/-- Python values a wrapper call can produce. Floats are kept symbolic (the
zero literal fallback versus float() applied to a result string), since
floating-point value semantics play no role in the wrapper's control flow. -/
inductive PyVal where
  | vInt (z : Int)
  | vBool (b : Bool)
  | vFloatZero
  | vFloatOf (s : String)
  | vStr (s : Option String)
deriving DecidableEq

/-- Digit-and-underscore body of a Python int literal: underscores must sit
between digits, every other character must be a digit. -/
def udAux : List Char → Bool
  | [] => true
  | '_' :: c :: rest => c.isDigit && udAux (c :: rest)
  | '_' :: [] => false
  | c :: rest => c.isDigit && udAux rest

/-- Valid unsigned digit group for int(): nonempty, starts with a digit, and
well-placed underscores. -/
def digitsOk (cs : List Char) : Bool :=
  match cs with
  | [] => false
  | c :: _ => c.isDigit && udAux cs

/-- Numeric value of a digit group, ignoring underscores. -/
def natVal (cs : List Char) : Nat :=
  (cs.filter (fun c => c ≠ '_')).foldl (fun a c => a * 10 + (c.toNat - 48)) 0

/-- Python int() applied to a string: strip whitespace, optional sign, then
digits (with underscores); None models the ValueError raised otherwise.
ASCII decimal digits only: int() additionally accepts non-ASCII Unicode
digits, which never occur in the executor's trimmed stdout strings. -/
def pyIntParse (s : String) : Option Int :=
  match stripChars s.data with
  | '+' :: rest => if digitsOk rest then some (natVal rest) else none
  | '-' :: rest => if digitsOk rest then some (-(natVal rest : Int)) else none
  | cs => if digitsOk cs then some (natVal cs) else none

/-- Lines 76-83 of decorator.py: convert the run_mojo result according to the
declared return annotation. A falsy result (None or the empty string) maps to
the fixed fallbacks 0, False and 0.0; a truthy result is parsed (int), or
compared against the literal text True (bool), or fed to float(). None models
an uncaught conversion exception. -/
def convertResult (ret : RetAnn) (result : Option String) : Option PyVal :=
  match ret, result with
  | .annInt, some s => if s ≠ "" then (pyIntParse s).map PyVal.vInt else some (.vInt 0)
  | .annInt, none => some (.vInt 0)
  | .annBool, some s => if s ≠ "" then some (.vBool (s = "True")) else some (.vBool false)
  | .annBool, none => some (.vBool false)
  | .annFloat, some s => if s ≠ "" then some (.vFloatOf s) else some (.vFloatZero)
  | .annFloat, none => some (.vFloatZero)
  | .annOther, r => some (.vStr r)

/-- Result of one call of a decorated function: the converted value (or an
uncaught exception message), plus the cache and trace of the inner run_mojo
call. -/
structure WrapperOutput where
  value : Except String PyVal
  cache : List String
  trace : List Event
deriving DecidableEq

/-- The wrapper of decorator.py: render the docstring template with the bound
arguments, execute through run_mojo with use_cache true, and convert the
result by the declared return annotation. -/
def mojoWrapper (env : Env) (cache : List String) (template : String)
    (args : List (String × String)) (ret : RetAnn) : WrapperOutput :=
  let code := renderTemplate template args
  let r := run_mojo env cache code false false true []
  match r.ret with
  | .error m => { value := .error m, cache := r.cache, trace := r.trace }
  | .ok o =>
    match convertResult ret o with
    | some v => { value := .ok v, cache := r.cache, trace := r.trace }
    | none => { value := .error "ValueError", cache := r.cache, trace := r.trace }

/-! Supporting lemmas: the SHA-256 embedding hits the published test vectors,
and structural facts about digest and key shapes. -/

/-- The SHA-256 digest of the empty message matches the published vector. -/
theorem sha256_empty_vector :
    sha256HexChars [] = "e3b0c44298fc1c149afbf4c8996fb92427ae41e4649b934ca495991b7852b855".data := by
  decide

/-- The SHA-256 digest of the three-byte message abc matches the published
FIPS 180-4 vector. -/
theorem sha256_abc_vector :
    sha256HexChars (utf8Encode "abc") =
      "ba7816bf8f01cfea414140de5dae2223b00361a396177a9cb410ff61f20015ad".data := by
  decide

/-- One compression round preserves the length of the working state. -/
theorem compressRound_length (st : List Nat) (kt wt : Nat) :
    (compressRound st kt wt).length = st.length := by
  unfold compressRound
  split <;> simp_all

/-- The round fold preserves the length of the working state. -/
theorem foldl_compressRound_length (l : List (Nat × Nat)) (st : List Nat) :
    (l.foldl (fun s kw => compressRound s kw.1 kw.2) st).length = st.length := by
  induction l generalizing st with
  | nil => rfl
  | cons a l ih => simp [List.foldl_cons, ih, compressRound_length]

/-- Block compression preserves the length of the hash state. -/
theorem compressBlock_length (H b : List Nat) :
    (compressBlock H b).length = H.length := by
  unfold compressBlock
  simp [foldl_compressRound_length]

/-- The block fold preserves the length of the hash state. -/
theorem foldl_compressBlock_length (bs : List (List Nat)) (H : List Nat) :
    (bs.foldl compressBlock H).length = H.length := by
  induction bs generalizing H with
  | nil => rfl
  | cons b bs ih => simp [List.foldl_cons, ih, compressBlock_length]

/-- Big-endian rendering into k bytes has length k. -/
theorem toBytesBE_length (k n : Nat) : (toBytesBE k n).length = k := by
  induction k generalizing n with
  | zero => rfl
  | succ k ih => simp [toBytesBE, ih]

/-- Every byte emitted by the big-endian rendering is below 256. -/
theorem toBytesBE_mem_lt (k n b : Nat) (h : b ∈ toBytesBE k n) : b < 256 := by
  induction k generalizing n with
  | zero => simp [toBytesBE] at h
  | succ k ih =>
    simp only [toBytesBE, List.mem_append, List.mem_singleton] at h
    rcases h with h | h
    · exact ih _ h
    · rw [h]; exact Nat.mod_lt _ (by norm_num)

/-- Length of the flattened fixed-width byte rendering of a word list. -/
theorem flatten_map_toBytesBE_length (k : Nat) (l : List Nat) :
    ((l.map (toBytesBE k)).flatten).length = k * l.length := by
  induction l with
  | nil => simp
  | cons a t ih => simp [toBytesBE_length, ih]; ring

/-- A SHA-256 digest consists of 32 bytes. -/
theorem sha256Bytes_length (msg : List Nat) : (sha256Bytes msg).length = 32 := by
  unfold sha256Bytes
  rw [flatten_map_toBytesBE_length, foldl_compressBlock_length]
  rfl

/-- Every byte of a SHA-256 digest is below 256. -/
theorem sha256Bytes_mem_lt (msg : List Nat) (b : Nat) (h : b ∈ sha256Bytes msg) : b < 256 := by
  unfold sha256Bytes at h
  rw [List.mem_flatten] at h
  rcases h with ⟨l, hl, hb⟩
  rw [List.mem_map] at hl
  rcases hl with ⟨w, _, rfl⟩
  exact toBytesBE_mem_lt _ _ _ hb

/-- Length of the flattened hex rendering of a byte list. -/
theorem flatten_map_byteToHex_length (l : List Nat) :
    ((l.map byteToHex).flatten).length = 2 * l.length := by
  induction l with
  | nil => simp
  | cons a t ih => simp [byteToHex, ih]; ring

/-- The hexdigest of a SHA-256 digest has 64 characters. -/
theorem sha256HexChars_length (msg : List Nat) : (sha256HexChars msg).length = 64 := by
  unfold sha256HexChars
  rw [flatten_map_byteToHex_length, sha256Bytes_length]

/-- A character of a hexdigest is a decimal digit or a lowercase letter
between a and f. -/
theorem sha256HexChars_mem (msg : List Nat) (ch : Char) (h : ch ∈ sha256HexChars msg) :
    ch.isDigit = true ∨ ('a' ≤ ch ∧ ch ≤ 'f') := by
  unfold sha256HexChars at h
  rw [List.mem_flatten] at h
  rcases h with ⟨l, hl, hc⟩
  rw [List.mem_map] at hl
  rcases hl with ⟨b, hb, rfl⟩
  have hlt : b < 256 := sha256Bytes_mem_lt _ _ hb
  have hdig : ∀ n, n < 16 → ((hexDigit n).isDigit = true ∨ ('a' ≤ hexDigit n ∧ hexDigit n ≤ 'f')) := by
    decide
  simp only [byteToHex, List.mem_cons, List.not_mem_nil, or_false] at hc
  rcases hc with rfl | rfl
  · exact hdig _ (Nat.div_lt_of_lt_mul (by omega))
  · exact hdig _ (Nat.mod_lt _ (by norm_num))

/-! Claim theorems. -/

/-- C6: for every source string s, the cache key is the fixed namespace tag
mojo_ followed by the first 16 hexadecimal characters of the SHA-256 hash of
the UTF-8 bytes of s (so it has length 21 and a hexadecimal tail), and the
key function is deterministic: computing it twice on the same string yields
the same key. -/
theorem cache_key_shape (s : String) :
    mojoCacheKey s = "mojo_" ++ String.mk ((sha256HexChars (utf8Encode s)).take 16) ∧
    (mojoCacheKey s).length = 21 ∧
    (∀ ch ∈ (code_hash s).data, ch.isDigit = true ∨ ('a' ≤ ch ∧ ch ≤ 'f')) ∧
    (∀ t : String, s = t → mojoCacheKey s = mojoCacheKey t) := by
  refine ⟨rfl, ?_, ?_, ?_⟩
  · rw [mojoCacheKey, String.length_append]
    have h16 : (code_hash s).length = 16 := by
      show ((sha256HexChars (utf8Encode s)).take 16).length = 16
      rw [List.length_take, sha256HexChars_length]
      simp
    rw [h16]
    decide
  · intro ch hch
    exact sha256HexChars_mem _ _ (List.take_subset 16 _ hch)
  · intro t h
    rw [h]

/-- Witness for C6 at the concrete source string fn main():, discharging the
determinism hypothesis and the hexadecimal-membership hypothesis at the
concrete first character of the hash. -/
theorem cache_key_shape_witness :
    mojoCacheKey "fn main():" =
      "mojo_" ++ String.mk ((sha256HexChars (utf8Encode "fn main():")).take 16) ∧
    (mojoCacheKey "fn main():").length = 21 ∧
    (('1').isDigit = true ∨ ('a' ≤ '1' ∧ '1' ≤ 'f')) ∧
    mojoCacheKey "fn main():" = mojoCacheKey "fn main():" :=
  ⟨(cache_key_shape "fn main():").1, (cache_key_shape "fn main():").2.1,
   (cache_key_shape "fn main():").2.2.1 '1' (by decide),
   (cache_key_shape "fn main():").2.2.2 "fn main():" rfl⟩

/-- C8 counterexample: for a source consisting of exactly one tab-indented
line and one space-indented line, validation fails with the missing-main
reason (check 2 fires before the mixed-indentation check 3), not with the
mixed-indentation reason claimed. -/
theorem mixed_indentation_counterexample :
    validate_mojo_code "\tvar a = 1\n var b = 2" = (false, some msgMissingMain) ∧
    (validate_mojo_code "\tvar a = 1\n var b = 2").snd ≠ some msgMixed := by
  exact ⟨by decide, by decide⟩

/-- C8 amended: for a source consisting of a recognized main declaration
followed by exactly one tab-indented line and one space-indented line,
validation fails with the mixed-indentation reason. -/
theorem mixed_indentation_with_main :
    validate_mojo_code "fn main():\n\tvar a = 1\n var b = 2" = (false, some msgMixed) := by
  decide

/-- When validation rejects the resolved code, the core pipeline returns None
with the cache untouched and a print-only trace. -/
theorem runMojoCore_invalid (env : Env) (cache : List String) (code : String)
    (eo uc : Bool) (args : List String) (h : (validate_mojo_code code).fst = false) :
    ∃ tr, runMojoCore env cache code eo uc args = ⟨.ok none, cache, tr⟩ ∧
      onlyPrints tr = true := by
  rcases hv : validate_mojo_code code with ⟨b, m⟩
  rw [hv] at h
  simp only at h
  subst h
  refine ⟨[.printed ("### Validation Error: " ++ optMsgStr m)] ++
      (if get_validation_hint (optMsgStr m) ≠ "" then
        [Event.printed (get_validation_hint (optMsgStr m))] else []), ?_, ?_⟩
  · unfold runMojoCore
    rw [hv]
  · simp only [onlyPrints, List.all_append, List.all_cons, List.all_nil, isPrinted,
      Bool.and_true, Bool.true_and]
    split <;> simp [isPrinted]

/-- C1: a source rejected by validation yields None, leaves the cache
untouched, and produces a trace containing only console prints: no scratch
file, no compiler invocation, no cache probe or write, no execution. -/
theorem validation_gate (env : Env) (c : List String) (source : String) (ec eo uc : Bool)
    (args : List String) (h : rejectedByValidation env source = true) :
    (run_mojo env c source ec eo uc args).ret = .ok none ∧
    (run_mojo env c source ec eo uc args).cache = c ∧
    onlyPrints (run_mojo env c source ec eo uc args).trace = true := by
  unfold run_mojo
  by_cases h0 : pyStrip source = ""
  · simp [h0, onlyPrints, isPrinted]
  · cases hf : env.isFile source with
    | false =>
      have hv : (validate_mojo_code (pyDedent source)).fst = false := by
        unfold rejectedByValidation resolvedCode at h
        simp only [h0] at h
        simp only [hf] at h
        simpa using h
      obtain ⟨tr, heq, hpr⟩ := runMojoCore_invalid env c (pyDedent source) eo uc args hv
      simp [h0, hf, heq, onlyPrints, List.all_append, hpr, isPrinted]
      refine ⟨?_, ?_⟩
      · rintro x hec hmem
        rcases hmem with rfl | rfl | rfl <;> rfl
      · simp only [onlyPrints, List.all_eq_true] at hpr
        intro x hx
        exact hpr x hx
    | true =>
      cases hr : env.readFile source with
      | error e => simp [h0, hf, hr, onlyPrints, isPrinted]
      | ok content =>
        have hv : (validate_mojo_code content).fst = false := by
          unfold rejectedByValidation resolvedCode at h
          simp only [h0] at h
          simp only [hf] at h
          rw [hr] at h
          simpa using h
        obtain ⟨tr, heq, hpr⟩ := runMojoCore_invalid env c content eo uc args hv
        simp [h0, hf, hr, heq, onlyPrints, List.all_append, hpr, isPrinted]
        refine ⟨?_, ?_⟩
        · rintro x hec hmem
          rcases hmem with rfl | rfl | rfl <;> rfl
        · simp only [onlyPrints, List.all_eq_true] at hpr
          intro x hx
          exact hpr x hx

/-- A concrete environment for witnesses: no file paths exist, compilation
always succeeds, and every binary prints a fixed line and exits zero. -/
def envOkW : Env :=
  { isFile := fun _ => false
    readFile := fun _ => .error "unused"
    compileRes := fun _ => .done 0 ""
    execRes := fun _ _ => .done "hi\n" "" 0
    mojoVersion := "Mojo test" }

/-- Witness for C1: the concrete source var x = 1 is rejected (no main
function), and the call returns None with an untouched cache and a
print-only trace. -/
theorem validation_gate_witness :
    rejectedByValidation envOkW "var x = 1" = true ∧
    ((run_mojo envOkW [] "var x = 1" false false true []).ret = .ok none ∧
      (run_mojo envOkW [] "var x = 1" false false true []).cache = ([] : List String) ∧
      onlyPrints (run_mojo envOkW [] "var x = 1" false false true []).trace = true) :=
  ⟨by decide, validation_gate envOkW [] "var x = 1" false false true [] (by decide)⟩

/-- C9: on every exit path of every call (cache hit, fresh compile that
succeeds, compile failure, compiler exception, or no compilation at all) the
scratch-file creations and deletions in the trace balance exactly: whenever
the source is materialized into a scratch file, that scratch file is
deleted. -/
theorem scratch_file_cleanup (env : Env) (c : List String) (source : String)
    (ec eo uc : Bool) (args : List String) :
    (run_mojo env c source ec eo uc args).trace.countP isScratchWrite =
      (run_mojo env c source ec eo uc args).trace.countP isScratchDelete := by
  have hexec : ∀ key extraArgs eo',
      (execPhase env key extraArgs eo').2.countP isScratchWrite = 0 ∧
      (execPhase env key extraArgs eo').2.countP isScratchDelete = 0 := by
    intro key extraArgs eo'
    unfold execPhase
    split <;> (repeat' split) <;>
      simp [List.countP_append, List.countP_cons, isScratchWrite, isScratchDelete]
  have hnow : ∀ code key cache' uc' eo',
      (compileNow env code key cache' uc' eo').2.2.countP isScratchWrite = 1 ∧
      (compileNow env code key cache' uc' eo').2.2.countP isScratchDelete = 1 := by
    intro code key cache' uc' eo'
    unfold compileNow
    split <;> (repeat' split) <;>
      simp [List.countP_append, List.countP_cons, isScratchWrite, isScratchDelete]
  have hphase : ∀ code key cache' uc' eo',
      (compilePhase env code key cache' uc' eo').2.2.countP isScratchWrite =
      (compilePhase env code key cache' uc' eo').2.2.countP isScratchDelete := by
    intro code key cache' uc' eo'
    have h := hnow code key cache' uc' eo'
    unfold compilePhase
    cases uc' with
    | false => simpa using h.1.trans h.2.symm
    | true =>
      by_cases hk : key ∈ cache'
      · cases eo' <;>
          simp [hk, List.countP_append, List.countP_cons, isScratchWrite, isScratchDelete]
      · rcases hcn : compileNow env code key cache' true eo' with ⟨st, c1, ev⟩
        rw [hcn] at h
        simp [hk, hcn, List.countP_append, List.countP_cons, isScratchWrite, isScratchDelete,
          h.1, h.2]
  have hcore : ∀ code,
      (runMojoCore env c code eo uc args).trace.countP isScratchWrite =
      (runMojoCore env c code eo uc args).trace.countP isScratchDelete := by
    intro code
    unfold runMojoCore
    split
    · simp only []
      split <;> simp [List.countP_append, List.countP_cons, isScratchWrite, isScratchDelete]
    · simp only []
      have h := hphase code (mojoCacheKey code) c uc eo
      split
      · rename_i c1 ev heq
        rw [heq] at h
        have h2 := hexec (mojoCacheKey code) args eo
        simp [List.countP_append, h, h2.1, h2.2]
      · rename_i s c1 ev heq
        rw [heq] at h
        simpa using h
      · rename_i m' c1 ev heq
        rw [heq] at h
        simpa using h
  unfold run_mojo
  by_cases h0 : pyStrip source = ""
  · simp [h0, isScratchWrite, isScratchDelete]
  · cases hf : env.isFile source with
    | true =>
      cases hr : env.readFile source with
      | error e => simp [h0, hf, hr, isScratchWrite, isScratchDelete]
      | ok content =>
        cases ec <;>
          simp [h0, hf, hr, List.countP_append, List.countP_cons, isScratchWrite,
            isScratchDelete, hcore content]
    | false =>
      cases ec <;>
        simp [h0, hf, List.countP_append, List.countP_cons, isScratchWrite,
          isScratchDelete, hcore (pyDedent source)]

/-! Branch-shape lemmas for the compile-or-reuse and execution phases. -/

/-- Cache hit with use_cache true: no compilation, cache unchanged. -/
theorem compilePhase_cached (env : Env) (code key : String) (c : List String) (eo : Bool)
    (hk : key ∈ c) :
    compilePhase env code key c true eo =
      (.proceed, c,
        [.cacheProbe key] ++
          (if eo = true then [Event.printed ("[Using cached binary " ++ key ++ "]")] else [])) := by
  unfold compilePhase
  simp [hk]

/-- Successful compilation: the entry is written and the run proceeds. -/
theorem compileNow_ok (env : Env) (code key : String) (c : List String) (uc eo : Bool)
    (st : String) (hc : env.compileRes code = .done 0 st) :
    compileNow env code key c uc eo =
      (.proceed, insertKey key c,
        (if uc && eo then [Event.printed ("[Compiling and caching as " ++ key ++ "...]")] else [])
          ++ [.scratchWrite code, .compileInvoked code key] ++ [.cacheWrite key, .scratchDelete]) := by
  unfold compileNow
  rw [hc]
  simp

/-- Failed compilation: stderr is surfaced, no entry is written. -/
theorem compileNow_fail (env : Env) (code key : String) (c : List String) (uc eo : Bool)
    (rc : Int) (st : String) (hc : env.compileRes code = .done rc st) (hrc : rc ≠ 0) :
    compileNow env code key c uc eo =
      (.failedStep st, c,
        (if uc && eo then [Event.printed ("[Compiling and caching as " ++ key ++ "...]")] else [])
          ++ [.scratchWrite code, .compileInvoked code key]
          ++ [.printed ("### Compilation failed:\n" ++ st), .scratchDelete]) := by
  unfold compileNow
  rw [hc]
  simp [hrc]

/-- Cache miss with use_cache true: probe then compile. -/
theorem compilePhase_miss (env : Env) (code key : String) (c : List String) (eo : Bool)
    (hk : key ∉ c) :
    compilePhase env code key c true eo =
      ((compileNow env code key c true eo).1,
        (compileNow env code key c true eo).2.1,
        [.cacheProbe key] ++ (compileNow env code key c true eo).2.2) := by
  unfold compilePhase
  simp [hk]

/-- use_cache false: compile unconditionally, with no existence probe. -/
theorem compilePhase_nocache (env : Env) (code key : String) (c : List String) (eo : Bool) :
    compilePhase env code key c false eo = compileNow env code key c false eo := by
  unfold compilePhase
  simp

/-- The execution phase never mentions compilation, probing, scratch files or
cache writes in its trace: only the execution event and prints. -/
theorem execPhase_events (env : Env) (key : String) (args : List String) (eo : Bool) :
    ∀ e ∈ (execPhase env key args eo).2, isPrinted e = true ∨ e = .execInvoked key args := by
  unfold execPhase
  split <;> (repeat' split) <;> simp_all [isPrinted]

/-- On a valid source, the core pipeline is the composition of the
compile-or-reuse phase and the execution phase. -/
theorem runMojoCore_valid (env : Env) (c : List String) (code : String)
    (eo uc : Bool) (args : List String) (hv : (validate_mojo_code code).fst = true) :
    runMojoCore env c code eo uc args =
      (match compilePhase env code (mojoCacheKey code) c uc eo with
       | (.proceed, c1, ev) =>
         { ret := (execPhase env (mojoCacheKey code) args eo).1, cache := c1,
           trace := ev ++ (execPhase env (mojoCacheKey code) args eo).2 }
       | (.failedStep _, c1, ev) => { ret := .ok none, cache := c1, trace := ev }
       | (.raisedStep m, c1, ev) => { ret := .error m, cache := c1, trace := ev }) := by
  unfold runMojoCore
  rcases hvp : validate_mojo_code code with ⟨b, m⟩
  rw [hvp] at hv
  simp only at hv
  subst hv
  rfl

/-- On a nonempty inline source, run_mojo dedents the argument and runs the
core pipeline on it, possibly echoing the code first. -/
theorem run_mojo_inline (env : Env) (c : List String) (source : String)
    (ec eo uc : Bool) (args : List String)
    (h0 : pyStrip source ≠ "") (hf : env.isFile source = false) :
    run_mojo env c source ec eo uc args =
      { runMojoCore env c (pyDedent source) eo uc args with
        trace :=
          (if ec = true then
            [Event.printed "### Mojo code from string\n",
             Event.printed (pyDedent source), Event.printed dashes80] else [])
            ++ (runMojoCore env c (pyDedent source) eo uc args).trace } := by
  unfold run_mojo
  simp [h0, hf]

/-- A fixed valid witness source. -/
def srcW : String := "fn main():\n    print(1)"

/-- C3: for a valid inline source whose compilation succeeds, two sequential
cached calls return the same value, the second call reuses the entry (the
cache is unchanged, so the entry count does not increase), and the second
call performs no compiler invocation. -/
theorem cached_rerun (env : Env) (c : List String) (s : String) (ec eo : Bool)
    (args : List String) (st : String)
    (h0 : pyStrip s ≠ "") (hf : env.isFile s = false)
    (hv : (validate_mojo_code (pyDedent s)).fst = true)
    (hc : env.compileRes (pyDedent s) = .done 0 st) :
    (run_mojo env (run_mojo env c s ec eo true args).cache s ec eo true args).ret
      = (run_mojo env c s ec eo true args).ret ∧
    (run_mojo env (run_mojo env c s ec eo true args).cache s ec eo true args).cache
      = (run_mojo env c s ec eo true args).cache ∧
    (run_mojo env (run_mojo env c s ec eo true args).cache s ec eo true
        args).trace.countP isCompileEvent = 0 := by
  have hshape : (run_mojo env c s ec eo true args).ret =
      (execPhase env (mojoCacheKey (pyDedent s)) args eo).1 ∧
      mojoCacheKey (pyDedent s) ∈ (run_mojo env c s ec eo true args).cache := by
    rw [run_mojo_inline env c s ec eo true args h0 hf, runMojoCore_valid env c _ eo true args hv]
    by_cases hk : mojoCacheKey (pyDedent s) ∈ c
    · rw [compilePhase_cached env _ _ c eo hk]
      simp [hk]
    · rw [compilePhase_miss env _ _ c eo hk, compileNow_ok env _ _ c true eo st hc]
      simp [insertKey, hk]
  obtain ⟨hret1, hmem1⟩ := hshape
  rw [run_mojo_inline env _ s ec eo true args h0 hf, runMojoCore_valid env _ _ eo true args hv,
    compilePhase_cached env _ _ _ eo hmem1]
  refine ⟨by simp [hret1], by simp, ?_⟩
  have hz : (execPhase env (mojoCacheKey (pyDedent s)) args eo).2.countP isCompileEvent = 0 := by
    rw [List.countP_eq_zero]
    intro e he
    rcases execPhase_events env _ args eo e he with hp | rfl
    · cases e <;> simp_all [isPrinted, isCompileEvent]
    · simp [isCompileEvent]
  cases ec <;> cases eo <;>
    simp [List.countP_append, List.countP_cons, isCompileEvent, hz]

/-- Witness for C3 at a concrete valid source with an all-succeeding
environment and an empty initial cache. -/
theorem cached_rerun_witness :
    (validate_mojo_code (pyDedent srcW)).fst = true ∧
    ((run_mojo envOkW (run_mojo envOkW [] srcW false false true []).cache srcW false false true
        []).ret = (run_mojo envOkW [] srcW false false true []).ret ∧
      (run_mojo envOkW (run_mojo envOkW [] srcW false false true []).cache srcW false false true
        []).cache = (run_mojo envOkW [] srcW false false true []).cache ∧
      (run_mojo envOkW (run_mojo envOkW [] srcW false false true []).cache srcW false false true
        []).trace.countP isCompileEvent = 0) :=
  ⟨by decide, cached_rerun envOkW [] srcW false false [] "" (by decide) rfl (by decide) rfl⟩

/-- C2: for a validated inline source whose compilation exits nonzero, the
call surfaces the captured compiler stderr and returns None, no cache entry
is created for the key, a compilation was attempted, and a subsequent call
from the resulting state is identical to the first (so the identical broken
source is recompiled on every future call: failures are never cached). -/
theorem compile_failure_not_cached (env : Env) (c : List String) (s : String) (ec eo : Bool)
    (args : List String) (rc : Int) (st : String)
    (h0 : pyStrip s ≠ "") (hf : env.isFile s = false)
    (hv : (validate_mojo_code (pyDedent s)).fst = true)
    (hc : env.compileRes (pyDedent s) = .done rc st) (hrc : rc ≠ 0)
    (hk : mojoCacheKey (pyDedent s) ∉ c) :
    (run_mojo env c s ec eo true args).ret = .ok none ∧
    Event.printed ("### Compilation failed:\n" ++ st) ∈ (run_mojo env c s ec eo true args).trace ∧
    (run_mojo env c s ec eo true args).cache = c ∧
    Event.compileInvoked (pyDedent s) (mojoCacheKey (pyDedent s))
      ∈ (run_mojo env c s ec eo true args).trace ∧
    run_mojo env (run_mojo env c s ec eo true args).cache s ec eo true args
      = run_mojo env c s ec eo true args := by
  have hrw : run_mojo env c s ec eo true args =
      { ret := Except.ok none, cache := c,
        trace :=
          (if ec = true then
            [Event.printed "### Mojo code from string\n",
             Event.printed (pyDedent s), Event.printed dashes80] else [])
            ++ ([Event.cacheProbe (mojoCacheKey (pyDedent s))] ++
              ((if true && eo then
                [Event.printed ("[Compiling and caching as " ++ mojoCacheKey (pyDedent s) ++ "...]")]
               else [])
                ++ [Event.scratchWrite (pyDedent s),
                    Event.compileInvoked (pyDedent s) (mojoCacheKey (pyDedent s))]
                ++ [Event.printed ("### Compilation failed:\n" ++ st), Event.scratchDelete])) } := by
    rw [run_mojo_inline env c s ec eo true args h0 hf, runMojoCore_valid env c _ eo true args hv,
      compilePhase_miss env _ _ c eo hk, compileNow_fail env _ _ c true eo rc st hc hrc]
  have h3 : (run_mojo env c s ec eo true args).cache = c := by rw [hrw]
  refine ⟨by rw [hrw], ?_, h3, ?_, by rw [h3]⟩
  · rw [hrw]
    cases ec <;> cases eo <;> simp
  · rw [hrw]
    cases ec <;> cases eo <;> simp

/-- An environment whose compiler always fails with a fixed diagnostic. -/
def envFailW : Env :=
  { isFile := fun _ => false
    readFile := fun _ => .error "unused"
    compileRes := fun _ => .done 1 "boom"
    execRes := fun _ _ => .done "" "" 0
    mojoVersion := "Mojo test" }

/-- Witness for C2 at a concrete valid source with an always-failing
compiler and an empty initial cache. -/
theorem compile_failure_not_cached_witness :
    (validate_mojo_code (pyDedent srcW)).fst = true ∧
    ((run_mojo envFailW [] srcW false false true []).ret = .ok none ∧
      Event.printed ("### Compilation failed:\n" ++ "boom")
        ∈ (run_mojo envFailW [] srcW false false true []).trace ∧
      (run_mojo envFailW [] srcW false false true []).cache = [] ∧
      Event.compileInvoked (pyDedent srcW) (mojoCacheKey (pyDedent srcW))
        ∈ (run_mojo envFailW [] srcW false false true []).trace ∧
      run_mojo envFailW (run_mojo envFailW [] srcW false false true []).cache srcW false false
          true [] = run_mojo envFailW [] srcW false false true []) :=
  ⟨by decide,
   compile_failure_not_cached envFailW [] srcW false false [] 1 "boom" (by decide) rfl
     (by decide) rfl (by decide) (by simp)⟩

/-- An environment whose compiler succeeds and whose binaries exit zero with
empty stdout. -/
def envEmptyOutW : Env :=
  { isFile := fun _ => false
    readFile := fun _ => .error "unused"
    compileRes := fun _ => .done 0 ""
    execRes := fun _ _ => .done "" "" 0
    mojoVersion := "Mojo test" }

/-- C4 counterexample: a binary that exits zero with empty stdout makes
run_mojo return None, not the trimmed captured stdout (the empty string), so
the claim's zero-exit clause fails as stated. -/
theorem exit_zero_empty_stdout_counterexample :
    envEmptyOutW.execRes (mojoCacheKey (pyDedent srcW)) [] = .done "" "" 0 ∧
    (run_mojo envEmptyOutW [] srcW false false true []).ret = .ok none ∧
    (run_mojo envEmptyOutW [] srcW false false true []).ret ≠ .ok (some (pyStrip "")) :=
  ⟨rfl, by decide, by decide⟩

/-- C4 amended: for an executed binary, run_mojo returns the trimmed captured
stdout exactly when the exit code is zero and the captured stdout is
non-empty; a nonzero exit code yields None even when stdout was non-empty
(the exit code is authoritative over captured output), and empty stdout
yields None even on exit code zero. -/
theorem exit_code_authoritative (env : Env) (c : List String) (s : String) (ec eo : Bool)
    (args : List String) (out err : String) (rc : Int)
    (h0 : pyStrip s ≠ "") (hf : env.isFile s = false)
    (hv : (validate_mojo_code (pyDedent s)).fst = true)
    (hk : mojoCacheKey (pyDedent s) ∈ c)
    (he : env.execRes (mojoCacheKey (pyDedent s)) args = .done out err rc) :
    (run_mojo env c s ec eo true args).ret =
      .ok (if rc = 0 ∧ out ≠ "" then some (pyStrip out) else none) := by
  rw [run_mojo_inline env c s ec eo true args h0 hf, runMojoCore_valid env c _ eo true args hv,
    compilePhase_cached env _ _ c eo hk]
  simp only []
  unfold execPhase
  rw [he]
  by_cases hrc : rc = 0 <;> by_cases hout : out = "" <;> simp [hrc, hout]

/-- Witness for C4 at a binary printing a line and exiting zero from a
pre-populated cache entry. -/
theorem exit_code_authoritative_witness :
    (validate_mojo_code (pyDedent srcW)).fst = true ∧
    (run_mojo envOkW [mojoCacheKey (pyDedent srcW)] srcW false false true []).ret =
      .ok (if (0 : Int) = 0 ∧ "hi\n" ≠ "" then some (pyStrip "hi\n") else none) :=
  ⟨by decide,
   exit_code_authoritative envOkW [mojoCacheKey (pyDedent srcW)] srcW false false [] "hi\n" ""
     0 (by decide) rfl (by decide) (by simp) rfl⟩

/-- C5 counterexample: with use_cache false the compiled binary is written to
the cache path: starting from an empty cache the call leaves one entry and
its trace contains a cache write, contradicting the claim that such a call
never writes the cache storage directory. -/
theorem nocache_writes_cache_counterexample :
    (run_mojo envOkW [] srcW false false false []).cache ≠ [] ∧
    Event.cacheWrite (mojoCacheKey (pyDedent srcW))
      ∈ (run_mojo envOkW [] srcW false false false []).trace :=
  ⟨by decide, by decide⟩

/-- The execution phase always records the execution of the binary. -/
theorem execPhase_exec_mem (env : Env) (key : String) (args : List String) (eo : Bool) :
    Event.execInvoked key args ∈ (execPhase env key args eo).2 := by
  unfold execPhase
  split <;> (repeat' split) <;> simp

/-- C5 amended: with use_cache false the existence probe is skipped, but the
source is always compiled with the cache path as output: on compiler success
the entry at the key is written (or overwritten) into the cache and then
executed; the cache is not read for a hit but it is written. -/
theorem nocache_compiles_into_cache_path (env : Env) (c : List String) (s : String)
    (ec eo : Bool) (args : List String) (st : String)
    (h0 : pyStrip s ≠ "") (hf : env.isFile s = false)
    (hv : (validate_mojo_code (pyDedent s)).fst = true)
    (hc : env.compileRes (pyDedent s) = .done 0 st) :
    (run_mojo env c s ec eo false args).cache = insertKey (mojoCacheKey (pyDedent s)) c ∧
    Event.cacheWrite (mojoCacheKey (pyDedent s)) ∈ (run_mojo env c s ec eo false args).trace ∧
    Event.compileInvoked (pyDedent s) (mojoCacheKey (pyDedent s))
      ∈ (run_mojo env c s ec eo false args).trace ∧
    (run_mojo env c s ec eo false args).trace.countP isProbeEvent = 0 ∧
    Event.execInvoked (mojoCacheKey (pyDedent s)) args
      ∈ (run_mojo env c s ec eo false args).trace := by
  rw [run_mojo_inline env c s ec eo false args h0 hf, runMojoCore_valid env c _ eo false args hv,
    compilePhase_nocache env _ _ c eo, compileNow_ok env _ _ c false eo st hc]
  have hz : (execPhase env (mojoCacheKey (pyDedent s)) args eo).2.countP isProbeEvent = 0 := by
    rw [List.countP_eq_zero]
    intro e he
    rcases execPhase_events env _ args eo e he with hp | rfl
    · cases e <;> simp_all [isPrinted, isProbeEvent]
    · simp [isProbeEvent]
  refine ⟨by simp, ?_, ?_, ?_, ?_⟩
  · cases ec <;> simp
  · cases ec <;> simp
  · cases ec <;> simp [List.countP_append, List.countP_cons, isProbeEvent, hz]
  · cases ec <;> simp [execPhase_exec_mem]

/-- Witness for C5 amended at a concrete valid source with an all-succeeding
environment and an empty initial cache. -/
theorem nocache_compiles_into_cache_path_witness :
    (validate_mojo_code (pyDedent srcW)).fst = true ∧
    ((run_mojo envOkW [] srcW false false false []).cache =
        insertKey (mojoCacheKey (pyDedent srcW)) [] ∧
      Event.cacheWrite (mojoCacheKey (pyDedent srcW))
        ∈ (run_mojo envOkW [] srcW false false false []).trace ∧
      Event.compileInvoked (pyDedent srcW) (mojoCacheKey (pyDedent srcW))
        ∈ (run_mojo envOkW [] srcW false false false []).trace ∧
      (run_mojo envOkW [] srcW false false false []).trace.countP isProbeEvent = 0 ∧
      Event.execInvoked (mojoCacheKey (pyDedent srcW)) []
        ∈ (run_mojo envOkW [] srcW false false false []).trace) :=
  ⟨by decide,
   nocache_compiles_into_cache_path envOkW [] srcW false false [] "" (by decide) rfl
     (by decide) rfl⟩

/-- An environment in which every source names an existing file whose
contents are a uniformly indented but otherwise valid program. -/
def envFileW : Env :=
  { isFile := fun _ => true
    readFile := fun _ => .ok "    fn main():\n        print(1)"
    compileRes := fun _ => .done 0 ""
    execRes := fun _ _ => .done "hi\n" "" 0
    mojoVersion := "Mojo test" }

/-- C7 counterexample: the program text is not trimmed before hashing and
file contents are not dedented. Two inline calls whose programs agree up to
surrounding whitespace (one has an extra trailing newline) hash to different
cache keys and create different cache entries; and the very same indented
program text succeeds when passed inline (dedented) but fails validation
when read from a file (used verbatim). -/
theorem normalization_counterexample :
    pyStrip (pyDedent (srcW ++ "\n")) = pyStrip (pyDedent srcW) ∧
    mojoCacheKey (pyDedent (srcW ++ "\n")) ≠ mojoCacheKey (pyDedent srcW) ∧
    (run_mojo envOkW [] (srcW ++ "\n") false false true []).cache ≠
      (run_mojo envOkW [] srcW false false true []).cache ∧
    (run_mojo envFileW [] "prog.mojo" false false true []).ret = .ok none ∧
    (run_mojo envOkW [] "    fn main():\n        print(1)" false false true []).ret =
      .ok (some "hi") :=
  ⟨by decide, by decide, by decide, by decide, by decide⟩

/-- C7 amended: normalization before validation and hashing is dedenting of
inline text only (no trimming, and file contents are used verbatim); hence
two inline calls whose texts are equal after dedenting (in particular, the
same program under different uniform leading indentation) behave identically,
using the same cache key. -/
theorem inline_dedent_normalization (env : Env) (c : List String) (s1 s2 : String)
    (ec eo uc : Bool) (args : List String)
    (hf1 : env.isFile s1 = false) (hf2 : env.isFile s2 = false)
    (h01 : pyStrip s1 ≠ "") (h02 : pyStrip s2 ≠ "")
    (hd : pyDedent s1 = pyDedent s2) :
    run_mojo env c s1 ec eo uc args = run_mojo env c s2 ec eo uc args := by
  rw [run_mojo_inline env c s1 ec eo uc args h01 hf1,
    run_mojo_inline env c s2 ec eo uc args h02 hf2, hd]

/-- Witness for C7 amended: the same program under two-space and four-space
uniform indentation dedents identically, so the calls coincide. -/
theorem inline_dedent_normalization_witness :
    pyDedent "  fn main():\n      print(1)" = pyDedent "    fn main():\n        print(1)" ∧
    run_mojo envOkW [] "  fn main():\n      print(1)" false false true [] =
      run_mojo envOkW [] "    fn main():\n        print(1)" false false true [] :=
  ⟨by decide,
   inline_dedent_normalization envOkW [] "  fn main():\n      print(1)"
     "    fn main():\n        print(1)" false false true [] rfl rfl (by decide) (by decide)
     (by decide)⟩

/-- The decorator's example-shaped template and arguments. -/
def tmplW : String := "fn main():\n    print(\x7b\x7bn\x7d\x7d)"

/-- One bound argument for the witness template. -/
def argsW : List (String × String) := [("n", "1")]

/-- C10: when the inner run_mojo call yields None or the empty string, a
decorated function returns the fixed fallback 0, False or 0.0 according to
its int, bool or float return annotation; and for a bool annotation a
successful non-empty result converts to True exactly when the trimmed stdout
equals the text True. -/
theorem wrapper_conversion (env : Env) (c : List String) (template : String)
    (args : List (String × String)) :
    ((run_mojo env c (renderTemplate template args) false false true []).ret = .ok none ∨
      (run_mojo env c (renderTemplate template args) false false true []).ret = .ok (some "") →
      (mojoWrapper env c template args .annInt).value = .ok (.vInt 0) ∧
      (mojoWrapper env c template args .annBool).value = .ok (.vBool false) ∧
      (mojoWrapper env c template args .annFloat).value = .ok .vFloatZero) ∧
    (∀ s : String, s ≠ "" →
      (run_mojo env c (renderTemplate template args) false false true []).ret = .ok (some s) →
      (mojoWrapper env c template args .annBool).value = .ok (.vBool (s = "True"))) := by
  constructor
  · intro h
    unfold mojoWrapper
    simp only []
    rcases h with h | h <;> rw [h] <;> simp [convertResult]
  · intro s hs h
    unfold mojoWrapper
    simp only []
    rw [h]
    simp [convertResult, hs]

/-- An environment whose binaries print the text True. -/
def envTrueW : Env :=
  { isFile := fun _ => false
    readFile := fun _ => .error "unused"
    compileRes := fun _ => .done 0 ""
    execRes := fun _ _ => .done "True\n" "" 0
    mojoVersion := "Mojo test" }

/-- Witness for C10: under a failing compiler the rendered template yields
None and the three fallbacks appear; under a binary printing True the bool
conversion compares the trimmed stdout against the text True. -/
theorem wrapper_conversion_witness :
    (run_mojo envFailW [] (renderTemplate tmplW argsW) false false true []).ret = .ok none ∧
    (mojoWrapper envFailW [] tmplW argsW .annInt).value = .ok (.vInt 0) ∧
    (mojoWrapper envFailW [] tmplW argsW .annBool).value = .ok (.vBool false) ∧
    (mojoWrapper envFailW [] tmplW argsW .annFloat).value = .ok .vFloatZero ∧
    (mojoWrapper envTrueW [] tmplW argsW .annBool).value = .ok (.vBool ("True" = "True")) :=
  ⟨by decide,
   ((wrapper_conversion envFailW [] tmplW argsW).1 (Or.inl (by decide))).1,
   ((wrapper_conversion envFailW [] tmplW argsW).1 (Or.inl (by decide))).2.1,
   ((wrapper_conversion envFailW [] tmplW argsW).1 (Or.inl (by decide))).2.2,
   (wrapper_conversion envTrueW [] tmplW argsW).2 "True" (by decide) (by decide)⟩

end MojoMarimo
